import Mathlib

/-!
Verification of the digit-guessing engine in `game.py`.

The Python source is a Streamlit script.  We embed its algorithmic core
shallowly:

* 4-digit strings (`f"{n:04d}"`) become lists of four digit values
  (`format_guess`),
* the candidate filter, the guess selector, the deterministic 10-query
  prober, the ordering binary search and the stage state machine become
  pure Lean functions over an explicit `GameState`,
* Python's `random.sample` / `random.choice` draws appear as explicit
  oracle parameters of the functions that use them,
* an uncaught Python exception (here: a `NameError` for a function that
  is never defined in the module) is returned as an explicit
  `Option PyError` next to the state holding all mutations performed
  before the raise (Streamlit keeps `session_state` across a crash).
-/

namespace Game

/-- Digit list of `f"{n:04d}"` for `n < 10000`: the four decimal digits of
`n`, most significant first.  This models the 4-character strings the
source manipulates (`format_guess` in `game.py`). -/
def format_guess (n : ℕ) : List ℕ :=
  [n / 1000 % 10, n / 100 % 10, n / 10 % 10, n % 10]

/-- `all_unique_4digit_numbers` from `game.py`: the numbers `0 ≤ n < 10000`
whose 4-digit string has four pairwise different characters. -/
def all_unique_4digit_numbers : List ℕ :=
  (List.range 10000).filter (fun n => (format_guess n).dedup.length = 4)

/-- `UNIQUE_POOL` from `game.py`. -/
def UNIQUE_POOL : List ℕ := all_unique_4digit_numbers

/-- `common_digit_count` from `game.py`: `len(set(a_str) & set(b_str))`,
the number of distinct digit values occurring in both strings. -/
def common_digit_count (a_str b_str : List ℕ) : ℕ :=
  ((a_str.dedup).filter (fun d => d ∈ b_str)).length

/-- `filter_candidates_by_feedback` from `game.py`: keep only the
candidates that would yield `reported_matches` for the guess. -/
def filter_candidates_by_feedback (candidates : List ℕ) (guess_str : List ℕ)
    (reported_matches : ℕ) : List ℕ :=
  candidates.filter (fun c => common_digit_count (format_guess c) guess_str = reported_matches)

/-! ## Guess selector (`choose_best_guess` in `game.py`) -/

/-- `sample_limit` default of `choose_best_guess` in `game.py`. -/
def sample_limit : ℕ := 600

/-- The size `random.sample` is called with when the probe pool is large:
`min(sample_limit, len(pool))` in `game.py`. -/
def sample_size (pool : List ℕ) : ℕ := min sample_limit pool.length

/-- The bucket-count loop of `choose_best_guess`: starting from
`counts = [0]*5`, for each candidate string `cs` increment
`counts[m]` where `m = len(set(cs) & set(g_str))`. -/
def bucket_counts (cand_strs : List (List ℕ)) (g_str : List ℕ) : List ℕ :=
  cand_strs.foldl
    (fun counts cs =>
      counts.set (common_digit_count cs g_str)
        (counts.getD (common_digit_count cs g_str) 0 + 1))
    [0, 0, 0, 0, 0]

/-- The probe score of `choose_best_guess`: `sum(c*c for c in counts)`. -/
def score (cand_strs : List (List ℕ)) (g_str : List ℕ) : ℕ :=
  ((bucket_counts cand_strs g_str).map (fun c => c * c)).sum

/-- The selection loop of `choose_best_guess`: iterate over the evaluated
pool keeping the pair `(best_score, best_guess)`; the initial accumulator
`none` models `best_score = math.inf, best_guess = None` (any score beats
`inf`, so the first probe always replaces `none`). -/
def best_loop (cand_strs : List (List ℕ)) :
    Option (ℕ × ℕ) → List ℕ → Option (ℕ × ℕ)
  | acc, [] => acc
  | none, g :: rest =>
      best_loop cand_strs (some (score cand_strs (format_guess g), g)) rest
  | some (bs, bg), g :: rest =>
      let sc := score cand_strs (format_guess g)
      if sc < bs then best_loop cand_strs (some (sc, g)) rest
      else best_loop cand_strs (some (bs, bg)) rest

/-- `choose_best_guess` from `game.py`.  The two random draws the source
makes are oracle parameters: `sample` stands for
`random.sample(pool, min(sample_limit, len(pool)))` (used only when the
pool holds more than 1000 probes) and `choice` for
`random.choice(candidates)` (used only when the evaluated pool was empty,
so that no probe was ever scored). -/
def choose_best_guess (candidates pool sample : List ℕ) (choice : ℕ) : Option ℕ :=
  if candidates.length = 0 then none
  else
    let eval_pool := if pool.length ≤ 1000 then pool else sample
    match best_loop (candidates.map format_guess) none eval_pool with
    | some (_, bg) => some bg
    | none => some choice

/-- The guess decision of the solver stage (`game.py` lines 246-256): with
an empty pool only an error is shown; a sole remaining candidate is picked
directly; otherwise `choose_best_guess` runs with the candidate pool used
as probe pool (`pool_for_guess = candidates`). -/
def solver_pick_guess (candidates sample : List ℕ) (choice : ℕ) : Option ℕ :=
  if candidates.length = 0 then none
  else if candidates.length = 1 then candidates.head?
  else choose_best_guess candidates candidates sample choice

/-- `g` is the first element of `l` attaining the minimal value of `sc`:
everything before it scores strictly higher, everything after it scores at
least as much. -/
def IsFirstMin (sc : ℕ → ℕ) (l : List ℕ) (g : ℕ) : Prop :=
  ∃ l1 l2, l = l1 ++ g :: l2 ∧ (∀ x ∈ l1, sc g < sc x) ∧ (∀ x ∈ l2, sc g ≤ sc x)

/-! ## Permutation enumeration and the missing `generate_candidates_*`
functions -/

/-- All ways of inserting `x` at some position of `l`. -/
def inserts (x : ℕ) : List ℕ → List (List ℕ)
  | [] => [[x]]
  | y :: ys => (x :: y :: ys) :: (inserts x ys).map (fun t => y :: t)

/-- All arrangements of `l` (computable by structural recursion, so that
concrete instances evaluate inside the kernel). -/
def perms : List ℕ → List (List ℕ)
  | [] => [[]]
  | x :: xs => (perms xs).flatMap (inserts x)

/-- Integer value of a digit string, `int(''.join(p))`. -/
def toVal (l : List ℕ) : ℕ := l.foldl (fun acc d => acc * 10 + d) 0

/-- Modelled from the spec: `generate_candidates_from_multiset` is called
at `game.py` line 222 but defined nowhere in the repository's source.
Spec §4.1 (`enumeratePermutations`): generate all arrangements of the four
characters, convert each arrangement to its integer value, deduplicate,
and return them sorted ascending. -/
def generate_candidates_from_multiset (ms : List ℕ) : List ℕ :=
  List.insertionSort (· ≤ ·) ((perms ms).map toVal).dedup

/-- Modelled from the spec: `generate_candidates_from_multiset_unique` is
called at `game.py` line 294 but defined nowhere in the repository's
source.  The spec describes a single permutation enumerator (§4.1), which
the unique-digit path uses on the matched guess string. -/
def generate_candidates_from_multiset_unique (ms : List ℕ) : List ℕ :=
  generate_candidates_from_multiset ms

/-! ## Ordering stage binary search -/

/-- A faithful run of the ordering-stage binary search of `game.py`
(lines 343-369), driven by a truthful oracle for `secret`: at state
`[lo, hi]` the engine probes `mid = (lo+hi)/2` and the oracle answers
`<`, `=` or `>` by comparing `secret` with `cands[mid]`.  The run returns
`(lo, hi, mid, turns)` of the terminal probe — the bounds in force when
the oracle answers `=`, the probed index, and the number of probes shown
including the final one — or `none` if the fuel runs out or the range
inverts. -/
def osearch (cands : List ℕ) (secret : ℕ) : ℕ → ℤ → ℤ → Option (ℤ × ℤ × ℤ × ℕ)
  | 0, _, _ => none
  | fuel + 1, lo, hi =>
    if lo > hi then none
    else
      if secret = cands.getD ((lo + hi) / 2).toNat 0 then some (lo, hi, (lo + hi) / 2, 1)
      else if secret < cands.getD ((lo + hi) / 2).toNat 0 then
        (osearch cands secret fuel lo ((lo + hi) / 2 - 1)).map
          (fun r => (r.1, r.2.1, r.2.2.1, r.2.2.2 + 1))
      else
        (osearch cands secret fuel ((lo + hi) / 2 + 1) hi).map
          (fun r => (r.1, r.2.1, r.2.2.1, r.2.2.2 + 1))

/-- `ceil(log2 n)`, the bound named by the spec for the ordering search. -/
def ceil_log2 (n : ℕ) : ℕ := if n ≤ 1 then 0 else Nat.log2 (n - 1) + 1

/-- The sorted permutation list of the multiset 0123 (a valid
`PermutationList` input of the ordering stage). -/
def c5_list24 : List ℕ := generate_candidates_from_multiset [0, 1, 2, 3]

/-- The singleton permutation list of the multiset 1111. -/
def c5_list1 : List ℕ := generate_candidates_from_multiset [1, 1, 1, 1]

/-! ## Stage state machine (`game.py` session state and handlers) -/

/-- An uncaught Python exception. -/
inductive PyError
  | nameError (missing : String)
deriving DecidableEq

/-- The values of `st.session_state["stage"]` in `game.py`:
`"intro"`, `"solver_stage"`, `"failed_random"`, `"deterministic_stage"`,
`"det_query"`, `"ordering_stage"`, `"done"`. -/
inductive Stage
  | intro
  | solver
  | failed
  | detIntro
  | detQuery
  | ordering
  | done
deriving DecidableEq

/-- The engine-relevant keys of `st.session_state` (`reset_state` in
`game.py`); `seed` and `logs` are presentation only and omitted.
`tried` is Python's growing set of shown guesses, kept as a
duplicate-free list. -/
structure GameState where
  stage : Stage
  max_trials : ℕ
  trials : ℕ
  tried : List ℕ
  current_guess : Option (List ℕ)
  recovered_guess : Option (List ℕ)
  candidates : List ℕ
  lo : ℤ
  hi : ℤ
  rand_match_selected : Option ℕ
  det_match_selected : Option ℕ
  digit_counts : Option (List (Option ℕ))
  det_digit : ℕ
  final_answer : Option ℕ
deriving DecidableEq

/-- The names bound at module scope of `game.py`: imports, `def`s and
module-level assignment targets (Streamlit scripts run at module level,
so `with`/`if`/`for` blocks bind module-scope names too).  A call to any
name outside this environment raises a `NameError`. -/
def module_defs : List String :=
  ["st", "random", "permutations", "defaultdict", "math", "NEON_CSS",
   "reset_state", "add_log", "all_unique_4digit_numbers", "UNIQUE_POOL",
   "format_guess", "common_digit_count", "filter_candidates_by_feedback",
   "choose_best_guess", "max_trials", "seed_text", "strategy",
   "col1", "col2", "c0", "c1", "c2", "c3", "i", "d", "sel", "counts",
   "digits", "total", "dig", "cnt", "recovered", "trials", "candidates",
   "pool_for_guess", "guess_int", "guess_str", "cols", "idx", "col",
   "new_cands", "lo", "hi", "mid", "guess_val", "sample_str", "final", "l"]

/-- `reset_state` from `game.py`. -/
def reset_state : GameState :=
  { stage := Stage.intro
    max_trials := 30
    trials := 0
    tried := []
    current_guess := none
    recovered_guess := none
    candidates := UNIQUE_POOL
    lo := 0
    hi := -1
    rand_match_selected := none
    det_match_selected := none
    digit_counts := none
    det_digit := 0
    final_answer := none }

/-- The widget events a user can fire, one per button of `game.py` (plus
the sidebar `max_trials` number input, whose widget enforces the range
1..1000). -/
inductive Input
  | reset
  | setMaxTrials (v : ℕ)
  | start (solverStrategy : Bool)
  | detBegin
  | detSelect (b : Bool)
  | detSubmit
  | solverSelect (m : ℕ)
  | solverSubmit
  | solverSkip
  | failedSwitch
  | failedRestart
  | orderLt
  | orderEq
  | orderGt
  | doneReplay
deriving DecidableEq

/-- The random draws a script run can make (solver-stage guess choice
before and after the event handler). -/
structure Rnd where
  sample : List ℕ
  choice : ℕ
  sample2 : List ℕ
  choice2 : ℕ

/-- A fixed dummy random source for runs that never reach the solver
stage. -/
def rnd0 : Rnd := ⟨[], 0, [], 0⟩

/-- The `for dig, cnt in counts.items()` loop of `game.py` lines 206-215
(dict keys iterate in insertion order, digits 0..9 ascending): break with
an error on an unanswered or out-of-range entry, otherwise collect the
flagged digits in ascending order. -/
def detScan : List (Option ℕ) → ℕ → Except String (List ℕ)
  | [], _ => Except.ok []
  | none :: _, _ => Except.error ("All 10 queries must be answered.")
  | some cnt :: rest, d =>
    if cnt ≠ 0 ∧ cnt ≠ 1 then Except.error ("Each answer must be 0 or 1.")
    else
      match detScan rest (d + 1) with
      | Except.ok ds => Except.ok (if cnt = 1 then d :: ds else ds)
      | Except.error e => Except.error e

/-- Outcome of the 10-query tally (`game.py` lines 203-226). -/
inductive DetResult
  | uiError (e : String)
  | wrongTotal (total : ℕ)
  | ok (ds : List ℕ)
deriving DecidableEq

/-- The tally after the 10th deterministic answer: an error message for a
broken entry, `wrongTotal` when the number of flagged digits is not 4
(`st.error`, not silently corrected), else the flagged digits in
ascending order. -/
def det_finalize (counts : List (Option ℕ)) : DetResult :=
  match detScan counts 0 with
  | Except.error e => DetResult.uiError e
  | Except.ok ds =>
      if ds.length ≠ 4 then DetResult.wrongTotal ds.length else DetResult.ok ds

/-- The guess-rendering block of the solver stage (`game.py` lines
244-266), executed on every script run in which the solver stage is
shown: recompute the pool-splitting guess, and whenever the recomputed
guess differs from the displayed `current_guess` (or none is displayed),
replace the display and advance `trials` by one. -/
def solver_render (s : GameState) (sample : List ℕ) (choice : ℕ) : GameState :=
  if s.stage = Stage.solver ∧ s.candidates ≠ [] then
    match solver_pick_guess s.candidates sample choice with
    | none => s
    | some gi =>
        if s.current_guess = some (format_guess gi) then s
        else { s with current_guess := some (format_guess gi), trials := s.trials + 1 }
  else s

/-- The widget event handlers of `game.py`.  Buttons exist only in the
stage that renders them, so an event for another stage leaves the state
unchanged.  The result carries the uncaught `NameError` raised when a
branch calls one of the two `generate_candidates_*` functions absent from
`module_defs`; the returned state keeps every `session_state` mutation
made before the raise. -/
def handle (s : GameState) : Input → GameState × Option PyError
  | Input.reset => (reset_state, none)
  | Input.setMaxTrials v =>
      if 1 ≤ v ∧ v ≤ 1000 then ({ s with max_trials := v }, none) else (s, none)
  | Input.start solverStrategy =>
      if s.stage = Stage.intro then
        ({ s with
            trials := 0
            tried := []
            rand_match_selected := none
            det_match_selected := none
            candidates := UNIQUE_POOL
            stage := if solverStrategy then Stage.solver else Stage.detIntro }, none)
      else (s, none)
  | Input.detBegin =>
      if s.stage = Stage.detIntro then
        ({ s with
            digit_counts := some (List.replicate 10 none)
            det_digit := 0
            stage := Stage.detQuery }, none)
      else (s, none)
  | Input.detSelect b =>
      if s.stage = Stage.detQuery then
        ({ s with det_match_selected := some (if b then 1 else 0) }, none)
      else (s, none)
  | Input.detSubmit =>
      if s.stage = Stage.detQuery then
        match s.det_match_selected with
        | none => (s, none)
        | some sel =>
          match s.digit_counts with
          | none => (s, none)
          | some counts =>
              let s1 : GameState :=
                { s with
                  digit_counts := some (counts.set s.det_digit (some sel))
                  det_match_selected := none
                  det_digit := s.det_digit + 1 }
              if s.det_digit + 1 ≥ 10 then
                match det_finalize (counts.set s.det_digit (some sel)) with
                | DetResult.uiError _ => (s1, none)
                | DetResult.wrongTotal _ => (s1, none)
                | DetResult.ok ds =>
                    let s2 : GameState := { s1 with recovered_guess := some ds }
                    if "generate_candidates_from_multiset" ∈ module_defs then
                      ({ s2 with
                          candidates := generate_candidates_from_multiset ds
                          lo := 0
                          hi := ((generate_candidates_from_multiset ds).length : ℤ) - 1
                          stage := Stage.ordering }, none)
                    else (s2, some (PyError.nameError ("generate_candidates_from_multiset")))
              else (s1, none)
      else (s, none)
  | Input.solverSelect m =>
      if s.stage = Stage.solver ∧ s.candidates ≠ [] ∧ m < 5 then
        ({ s with rand_match_selected := some m }, none)
      else (s, none)
  | Input.solverSubmit =>
      if s.stage = Stage.solver ∧ s.candidates ≠ [] then
        match s.rand_match_selected with
        | none => (s, none)
        | some sel =>
          match s.current_guess with
          | none => (s, none)
          | some gs =>
              let s1 : GameState :=
                { s with
                  candidates := filter_candidates_by_feedback s.candidates gs sel
                  tried := s.tried.insert (toVal gs)
                  rand_match_selected := none }
              if sel = 4 then
                let s2 : GameState := { s1 with recovered_guess := some gs }
                if "generate_candidates_from_multiset_unique" ∈ module_defs then
                  ({ s2 with
                      candidates := generate_candidates_from_multiset_unique gs
                      lo := 0
                      hi := ((generate_candidates_from_multiset_unique gs).length : ℤ) - 1
                      stage := Stage.ordering }, none)
                else (s2, some (PyError.nameError ("generate_candidates_from_multiset_unique")))
              else
                if s.trials ≥ s.max_trials then ({ s1 with stage := Stage.failed }, none)
                else ({ s1 with current_guess := none }, none)
      else (s, none)
  | Input.solverSkip =>
      if s.stage = Stage.solver ∧ s.candidates ≠ [] then
        ({ s with current_guess := none, rand_match_selected := none }, none)
      else (s, none)
  | Input.failedSwitch =>
      if s.stage = Stage.failed then ({ s with stage := Stage.detIntro }, none) else (s, none)
  | Input.failedRestart =>
      if s.stage = Stage.failed then (reset_state, none) else (s, none)
  | Input.orderLt =>
      if s.stage = Stage.ordering ∧ s.lo ≤ s.hi then
        ({ s with hi := (s.lo + s.hi) / 2 - 1 }, none)
      else (s, none)
  | Input.orderEq =>
      if s.stage = Stage.ordering ∧ s.lo ≤ s.hi then
        ({ s with
            stage := Stage.done
            final_answer := some (s.candidates.getD ((s.lo + s.hi) / 2).toNat 0) }, none)
      else (s, none)
  | Input.orderGt =>
      if s.stage = Stage.ordering ∧ s.lo ≤ s.hi then
        ({ s with lo := (s.lo + s.hi) / 2 + 1 }, none)
      else (s, none)
  | Input.doneReplay =>
      if s.stage = Stage.done then (reset_state, none) else (s, none)

/-- What the ordering stage displays (`game.py` lines 343-348): the
contradiction error when the range is inverted — with no further probe
and no buttons — otherwise the probe at `mid = (lo+hi)//2`. -/
inductive OrderingView
  | contradiction
  | probe (val : ℕ)
deriving DecidableEq

def ordering_view (s : GameState) : OrderingView :=
  if s.lo > s.hi then OrderingView.contradiction
  else OrderingView.probe (s.candidates.getD ((s.lo + s.hi) / 2).toNat 0)

/-- One user interaction: the script run delivering the widget event
executes the solver-stage render block, then the event handler; on
success the `st.rerun()` issued by the handler runs the script once more,
rendering again with fresh random draws.  A raised `PyError` aborts the
run but keeps all mutations made before the raise. -/
def step (s : GameState) (inp : Input) (r : Rnd) : GameState × Option PyError :=
  match handle (solver_render s r.sample r.choice) inp with
  | (s2, none) => (solver_render s2 r.sample2 r.choice2, none)
  | (s2, some e) => (s2, some e)

/-- States the app can be in: the initial `reset_state` and everything a
user interaction can produce from a reachable state (crashed runs
included, since `session_state` survives them). -/
inductive Reachable : GameState → Prop
  | init : Reachable reset_state
  | next (s : GameState) (inp : Input) (r : Rnd) :
      Reachable s → Reachable (step s inp r).1

/-- One deterministic-stage round: pick 0 or 1, submit. -/
def det_round (s : GameState) (b : Bool) : GameState × Option PyError :=
  step (step s (Input.detSelect b) rnd0).1 Input.detSubmit rnd0

/-- Run the deterministic prober on a list of answers, stopping at the
first crash. -/
def det_run : GameState → List Bool → GameState × Option PyError
  | s, [] => (s, none)
  | s, b :: bs =>
      match det_round s b with
      | (s', none) => det_run s' bs
      | (s', some e) => (s', some e)

/-- Overlay answers onto the counts list starting at slot `k`
(the effect of rounds `k, k+1, ...` on `digit_counts`). -/
def set_from (cs : List (Option ℕ)) (k : ℕ) : List Bool → List (Option ℕ)
  | [] => cs
  | b :: bs => set_from (cs.set k (some (if b then 1 else 0))) (k + 1) bs

/-- The digits flagged `1`, in ascending order starting from digit `d`. -/
def flagged_from : List Bool → ℕ → List ℕ
  | [], _ => []
  | b :: bs, d => if b then d :: flagged_from bs (d + 1) else flagged_from bs (d + 1)

theorem common_digit_count_eq_card_inter (a b : List ℕ) :
    common_digit_count a b = (a.toFinset ∩ b.toFinset).card := by
  classical
  have hnd : (a.dedup.filter (fun d => d ∈ b)).Nodup := a.nodup_dedup.filter _
  have hlen : (a.dedup.filter (fun d => d ∈ b)).length
      = (a.dedup.filter (fun d => d ∈ b)).toFinset.card := by
    rw [List.card_toFinset, List.Nodup.dedup hnd]
  rw [common_digit_count, hlen]
  congr 1
  ext x
  simp [List.mem_filter, List.mem_toFinset, Finset.mem_inter, List.mem_dedup]

/-- C2: for every candidate pool, probe string and feedback value `f`,
`filter_candidates_by_feedback pool probe f` returns exactly the elements
`c` of the pool whose shared-digit count with the probe — the size of the
intersection of the two digit sets, `|set(c) ∩ set(probe)|` — equals `f`.
The embedding is a pure function of its arguments, so there is no effect
other than the returned sequence. -/
theorem c2_filter_candidates_exact (pool probe : List ℕ) (f : ℕ) :
    filter_candidates_by_feedback pool probe f
      = pool.filter (fun c => ((format_guess c).toFinset ∩ probe.toFinset).card = f)
    ∧ ∀ c : ℕ, c ∈ filter_candidates_by_feedback pool probe f
        ↔ c ∈ pool ∧ ((format_guess c).toFinset ∩ probe.toFinset).card = f := by
  constructor
  · unfold filter_candidates_by_feedback
    simp only [common_digit_count_eq_card_inter]
  · intro c
    unfold filter_candidates_by_feedback
    simp [List.mem_filter, common_digit_count_eq_card_inter]

/-- C3: if pool `P` contains the true secret `s`, filtering `P` by a probe
`g` with the truthful feedback `common_digit_count s g` keeps `s`, yields a
sublist of `P` (hence of non-increasing size, distinct if `P` is, and in
the original order), and is non-empty.  Moreover a filtering step can only
produce an empty pool when its feedback value is inconsistent with every
remaining candidate. -/
theorem c3_filter_preserves_secret (P g : List ℕ) (s : ℕ) (hs : s ∈ P) :
    s ∈ filter_candidates_by_feedback P g (common_digit_count (format_guess s) g)
    ∧ (filter_candidates_by_feedback P g (common_digit_count (format_guess s) g)).Sublist P
    ∧ (filter_candidates_by_feedback P g (common_digit_count (format_guess s) g)).length ≤ P.length
    ∧ filter_candidates_by_feedback P g (common_digit_count (format_guess s) g) ≠ []
    ∧ (P.Nodup → (filter_candidates_by_feedback P g (common_digit_count (format_guess s) g)).Nodup)
    ∧ ∀ f : ℕ, filter_candidates_by_feedback P g f = [] →
        ∀ c ∈ P, common_digit_count (format_guess c) g ≠ f := by
  have hmem : s ∈ filter_candidates_by_feedback P g (common_digit_count (format_guess s) g) := by
    unfold filter_candidates_by_feedback
    simp [List.mem_filter, hs]
  have hsub : (filter_candidates_by_feedback P g
      (common_digit_count (format_guess s) g)).Sublist P := List.filter_sublist P
  refine ⟨hmem, hsub, hsub.length_le, ?_, fun h => h.sublist hsub, ?_⟩
  · intro hempty
    rw [hempty] at hmem
    exact (List.not_mem_nil s) hmem
  · intro f hempty c hc hf
    have : c ∈ filter_candidates_by_feedback P g f := by
      unfold filter_candidates_by_feedback
      simp [List.mem_filter, hc, hf]
    rw [hempty] at this
    exact (List.not_mem_nil c) this

/-- Witness for C3 at a concrete pool, probe and secret. -/
theorem c3_filter_preserves_secret_witness :
    (1234 : ℕ) ∈ [1234, 5678, 1243]
    ∧ 1234 ∈ filter_candidates_by_feedback [1234, 5678, 1243] (format_guess 1234)
        (common_digit_count (format_guess 1234) (format_guess 1234)) := by
  refine ⟨by decide, ?_⟩
  exact (c3_filter_preserves_secret [1234, 5678, 1243] (format_guess 1234) 1234 (by decide)).1

theorem best_loop_spec (cand_strs : List (List ℕ)) :
    ∀ (l : List ℕ) (bs bg : ℕ),
      bs = score cand_strs (format_guess bg) →
      ∃ bs' bg', best_loop cand_strs (some (bs, bg)) l = some (bs', bg')
        ∧ bs' = score cand_strs (format_guess bg')
        ∧ ((bs' = bs ∧ bg' = bg ∧ ∀ x ∈ l, bs ≤ score cand_strs (format_guess x))
          ∨ (∃ l1 l2, l = l1 ++ bg' :: l2 ∧ bs' < bs
              ∧ (∀ x ∈ l1, bs' < score cand_strs (format_guess x))
              ∧ (∀ x ∈ l2, bs' ≤ score cand_strs (format_guess x)))) := by
  intro l
  induction l with
  | nil =>
      intro bs bg h
      exact ⟨bs, bg, rfl, h, Or.inl ⟨rfl, rfl, by simp⟩⟩
  | cons g rest ih =>
      intro bs bg h
      by_cases hlt : score cand_strs (format_guess g) < bs
      · have hstep : best_loop cand_strs (some (bs, bg)) (g :: rest)
            = best_loop cand_strs (some (score cand_strs (format_guess g), g)) rest := by
          simp [best_loop, hlt]
        obtain ⟨bs', bg', heq, hsc, hd⟩ := ih (score cand_strs (format_guess g)) g rfl
        refine ⟨bs', bg', hstep.trans heq, hsc, Or.inr ?_⟩
        rcases hd with ⟨h1, h2, h3⟩ | ⟨l1, l2, hsplit, hbs, hpre, hpost⟩
        · exact ⟨[], rest, by simp [h2], h1 ▸ hlt, by simp, by simpa [h1] using h3⟩
        · refine ⟨g :: l1, l2, by simp [hsplit], lt_trans hbs hlt, ?_, hpost⟩
          intro x hx
          rcases List.mem_cons.mp hx with rfl | hx
          · exact hbs
          · exact hpre x hx
      · have hstep : best_loop cand_strs (some (bs, bg)) (g :: rest)
            = best_loop cand_strs (some (bs, bg)) rest := by
          simp [best_loop, hlt]
        obtain ⟨bs', bg', heq, hsc, hd⟩ := ih bs bg h
        refine ⟨bs', bg', hstep.trans heq, hsc, ?_⟩
        rcases hd with ⟨h1, h2, h3⟩ | ⟨l1, l2, hsplit, hbs, hpre, hpost⟩
        · refine Or.inl ⟨h1, h2, ?_⟩
          intro x hx
          rcases List.mem_cons.mp hx with rfl | hx
          · exact le_of_not_lt hlt
          · exact h3 x hx
        · refine Or.inr ⟨g :: l1, l2, by simp [hsplit], hbs, ?_, hpost⟩
          intro x hx
          rcases List.mem_cons.mp hx with rfl | hx
          · exact lt_of_lt_of_le hbs (le_of_not_lt hlt)
          · exact hpre x hx

theorem best_loop_first_min (cand_strs : List (List ℕ)) (ep : List ℕ) (hep : ep ≠ []) :
    ∃ g, best_loop cand_strs none ep
        = some (score cand_strs (format_guess g), g)
      ∧ IsFirstMin (fun p => score cand_strs (format_guess p)) ep g := by
  match ep, hep with
  | g0 :: rest, _ =>
    have hstep : best_loop cand_strs none (g0 :: rest)
        = best_loop cand_strs (some (score cand_strs (format_guess g0), g0)) rest := rfl
    obtain ⟨bs', bg', heq, hsc, hd⟩ := best_loop_spec cand_strs rest
      (score cand_strs (format_guess g0)) g0 rfl
    refine ⟨bg', by rw [hstep, heq, hsc], ?_⟩
    rcases hd with ⟨h1, h2, h3⟩ | ⟨l1, l2, hsplit, hbs, hpre, hpost⟩
    · subst h2
      exact ⟨[], rest, rfl, by simp, fun x hx => h3 x hx⟩
    · rw [hsc] at hbs hpre hpost
      refine ⟨g0 :: l1, l2, by simp [hsplit], ?_, fun x hx => hpost x hx⟩
      intro x hx
      rcases List.mem_cons.mp hx with rfl | hx
      · exact hbs
      · exact hpre x hx

theorem common_digit_count_lt_five (a : List ℕ) (p : ℕ) :
    common_digit_count a (format_guess p) < 5 := by
  rw [common_digit_count_eq_card_inter]
  have h1 : ((a.toFinset ∩ (format_guess p).toFinset)).card ≤ (format_guess p).toFinset.card :=
    Finset.card_le_card Finset.inter_subset_right
  have h2 : (format_guess p).toFinset.card ≤ (format_guess p).length :=
    (format_guess p).toFinset_card_le
  have h3 : (format_guess p).length = 4 := rfl
  omega

theorem bucket_counts_loop (g_str : List ℕ) :
    ∀ (l : List (List ℕ)) (a b c d e : ℕ),
      (∀ cs ∈ l, common_digit_count cs g_str < 5) →
      l.foldl
        (fun counts cs =>
          counts.set (common_digit_count cs g_str)
            (counts.getD (common_digit_count cs g_str) 0 + 1))
        [a, b, c, d, e]
      = [a + l.countP (fun cs => common_digit_count cs g_str = 0),
         b + l.countP (fun cs => common_digit_count cs g_str = 1),
         c + l.countP (fun cs => common_digit_count cs g_str = 2),
         d + l.countP (fun cs => common_digit_count cs g_str = 3),
         e + l.countP (fun cs => common_digit_count cs g_str = 4)] := by
  intro l
  induction l with
  | nil => intro a b c d e _; simp
  | cons cs rest ih =>
      intro a b c d e h
      have hm : common_digit_count cs g_str < 5 := h cs (List.mem_cons_self _ _)
      have hrest : ∀ x ∈ rest, common_digit_count x g_str < 5 :=
        fun x hx => h x (List.mem_cons_of_mem _ hx)
      have hcase : common_digit_count cs g_str = 0 ∨ common_digit_count cs g_str = 1
          ∨ common_digit_count cs g_str = 2 ∨ common_digit_count cs g_str = 3
          ∨ common_digit_count cs g_str = 4 := by omega
      rcases hcase with h | h | h | h | h
      · rw [List.foldl_cons,
          show [a, b, c, d, e].set (common_digit_count cs g_str)
              ([a, b, c, d, e].getD (common_digit_count cs g_str) 0 + 1) = [a + 1, b, c, d, e] by
            rw [h]
            rfl,
          ih (a + 1) b c d e hrest]
        simp [List.countP_cons, h]
        all_goals omega
      · rw [List.foldl_cons,
          show [a, b, c, d, e].set (common_digit_count cs g_str)
              ([a, b, c, d, e].getD (common_digit_count cs g_str) 0 + 1) = [a, b + 1, c, d, e] by
            rw [h]
            rfl,
          ih a (b + 1) c d e hrest]
        simp [List.countP_cons, h]
        all_goals omega
      · rw [List.foldl_cons,
          show [a, b, c, d, e].set (common_digit_count cs g_str)
              ([a, b, c, d, e].getD (common_digit_count cs g_str) 0 + 1) = [a, b, c + 1, d, e] by
            rw [h]
            rfl,
          ih a b (c + 1) d e hrest]
        simp [List.countP_cons, h]
        all_goals omega
      · rw [List.foldl_cons,
          show [a, b, c, d, e].set (common_digit_count cs g_str)
              ([a, b, c, d, e].getD (common_digit_count cs g_str) 0 + 1) = [a, b, c, d + 1, e] by
            rw [h]
            rfl,
          ih a b c (d + 1) e hrest]
        simp [List.countP_cons, h]
        all_goals omega
      · rw [List.foldl_cons,
          show [a, b, c, d, e].set (common_digit_count cs g_str)
              ([a, b, c, d, e].getD (common_digit_count cs g_str) 0 + 1) = [a, b, c, d, e + 1] by
            rw [h]
            rfl,
          ih a b c d (e + 1) hrest]
        simp [List.countP_cons, h]
        all_goals omega

theorem score_eq_sum_sq_buckets (cand_strs : List (List ℕ)) (g_str : List ℕ)
    (h : ∀ cs ∈ cand_strs, common_digit_count cs g_str < 5) :
    score cand_strs g_str
      = ((List.range 5).map
          (fun m => (cand_strs.countP (fun cs => common_digit_count cs g_str = m)) ^ 2)).sum := by
  unfold score bucket_counts
  rw [bucket_counts_loop g_str cand_strs 0 0 0 0 0 h]
  have hr : List.range 5 = [0, 1, 2, 3, 4] := rfl
  rw [hr]
  simp [List.map_cons, List.sum_cons]
  ring

/-- C4: when more than one candidate remains, the solver evaluates probes
(the whole probe pool when it has at most 1000 entries, otherwise the
random sample, drawn with size capped at `sample_limit = 600`), scores
each evaluated probe by the sum of the squared sizes of the five buckets
into which it partitions the candidate pool by match count 0..4, and shows
the probe with minimal score, ties resolved in favor of the first probe in
evaluation order; when exactly one candidate remains, that candidate is
the probe shown. -/
theorem c4_solver_guess_selection (candidates sample : List ℕ) (choice : ℕ) :
    (∀ c : ℕ, candidates = [c] → solver_pick_guess candidates sample choice = some c)
    ∧ (∀ pool : List ℕ, sample_size pool = min 600 pool.length)
    ∧ (2 ≤ candidates.length →
        (if candidates.length ≤ 1000 then candidates else sample) ≠ [] →
        ∃ g, solver_pick_guess candidates sample choice = some g
          ∧ IsFirstMin (fun p => score (candidates.map format_guess) (format_guess p))
              (if candidates.length ≤ 1000 then candidates else sample) g
          ∧ ∀ p : ℕ, score (candidates.map format_guess) (format_guess p)
              = ((List.range 5).map
                  (fun m => ((candidates.map format_guess).countP
                      (fun cs => common_digit_count cs (format_guess p) = m)) ^ 2)).sum) := by
  refine ⟨?_, fun pool => rfl, ?_⟩
  · intro c hc
    subst hc
    simp [solver_pick_guess]
  · intro h2 hep
    have h0 : ¬ candidates.length = 0 := by omega
    have h1 : ¬ candidates.length = 1 := by omega
    obtain ⟨g, hloop, hmin⟩ := best_loop_first_min (candidates.map format_guess)
      (if candidates.length ≤ 1000 then candidates else sample) hep
    refine ⟨g, ?_, hmin, ?_⟩
    · simp only [solver_pick_guess, choose_best_guess, h0, h1, if_false]
      rw [hloop]
    · intro p
      exact score_eq_sum_sq_buckets _ _ (fun cs _ => common_digit_count_lt_five cs p)

/-- Witness for C4 at concrete candidate pools. -/
theorem c4_solver_guess_selection_witness :
    solver_pick_guess [7] [] 0 = some 7
    ∧ (∃ g, solver_pick_guess [12, 13] [] 0 = some g
        ∧ IsFirstMin (fun p => score ([12, 13].map format_guess) (format_guess p))
            (if ([12, 13] : List ℕ).length ≤ 1000 then [12, 13] else []) g) := by
  constructor
  · exact (c4_solver_guess_selection [7] [] 0).1 7 rfl
  · obtain ⟨g, hg, hmin, _⟩ :=
      (c4_solver_guess_selection [12, 13] [] 0).2.2 (by decide) (by decide)
    exact ⟨g, hg, hmin⟩

theorem pairwise_lt_getD (L : List ℕ) (h : L.Pairwise (· < ·)) (i j : ℕ)
    (hij : i < j) (hj : j < L.length) : L.getD i 0 < L.getD j 0 := by
  have hi : i < L.length := lt_trans hij hj
  rw [List.getD_eq_getElem L 0 hi, List.getD_eq_getElem L 0 hj]
  exact List.pairwise_iff_get.mp h ⟨i, hi⟩ ⟨j, hj⟩ hij

theorem osearch_correct (L : List ℕ) (s : ℕ) (hsorted : L.Pairwise (· < ·)) :
    ∀ (n : ℕ), ∀ (fuel : ℕ) (lo hi : ℤ), n = (hi + 1 - lo).toNat → n ≤ fuel →
      0 ≤ lo → hi < (L.length : ℤ) →
      (∃ i : ℕ, lo ≤ (i : ℤ) ∧ (i : ℤ) ≤ hi ∧ i < L.length ∧ L.getD i 0 = s) →
      ∃ lo' hi' mid : ℤ, ∃ t : ℕ, osearch L s fuel lo hi = some (lo', hi', mid, t)
        ∧ lo ≤ lo' ∧ lo' ≤ mid ∧ mid ≤ hi' ∧ hi' ≤ hi
        ∧ L.getD mid.toNat 0 = s
        ∧ 1 ≤ t ∧ t ≤ Nat.log2 n + 1 := by
  intro n
  induction n using Nat.strong_induction_on with
  | _ n ih =>
    intro fuel lo hi hn hfuel hlo hhi hwit
    obtain ⟨i, hilo, hihi, hilen, his⟩ := hwit
    have hlohi : lo ≤ hi := le_trans hilo hihi
    have hn1 : 1 ≤ n := by omega
    obtain ⟨f, rfl⟩ : ∃ f, fuel = f + 1 := ⟨fuel - 1, by omega⟩
    have hmidlo : lo ≤ (lo + hi) / 2 := by omega
    have hmidhi : (lo + hi) / 2 ≤ hi := by omega
    by_cases heq : s = L.getD ((lo + hi) / 2).toNat 0
    · refine ⟨lo, hi, (lo + hi) / 2, 1, ?_, le_refl lo, hmidlo, hmidhi, le_refl hi,
        heq.symm, le_refl 1, by omega⟩
      simp only [osearch, if_neg (not_lt.mpr hlohi), if_pos heq]
    · by_cases hlt : s < L.getD ((lo + hi) / 2).toNat 0
      · -- the witness index lies strictly left of mid
        have himid : (i : ℤ) < (lo + hi) / 2 := by
          by_contra hge
          push_neg at hge
          rcases lt_or_eq_of_le hge with hgt | heqi
          · have : ((lo + hi) / 2).toNat < i := by omega
            have := pairwise_lt_getD L hsorted ((lo + hi) / 2).toNat i this hilen
            omega
          · have : ((lo + hi) / 2).toNat = i := by omega
            rw [this] at heq
            exact heq his.symm
        have hn2 : 2 ≤ n := by omega
        obtain ⟨lo', hi', mid, t, hrec, h1, h2, h3, h4, h5, h6, h7⟩ :=
          ih ((lo + hi) / 2 - 1 + 1 - lo).toNat (by omega) f lo ((lo + hi) / 2 - 1)
            rfl (by omega) hlo (by omega) ⟨i, hilo, by omega, hilen, his⟩
        refine ⟨lo', hi', mid, t + 1, ?_, h1, h2, h3, by omega, h5, by omega, ?_⟩
        · simp only [osearch, if_neg (not_lt.mpr hlohi), if_neg heq, if_pos hlt, hrec]
          rfl
        · -- t + 1 ≤ log2 n + 1 from the halving of the range
          have hhalf : ((lo + hi) / 2 - 1 + 1 - lo).toNat ≤ n / 2 := by omega
          have hlog : Nat.log2 ((lo + hi) / 2 - 1 + 1 - lo).toNat + 1 ≤ Nat.log2 n := by
            rw [Nat.log2_eq_log_two, Nat.log2_eq_log_two]
            have hm := Nat.log_mono_right (b := 2) hhalf
            have hd : Nat.log 2 (n / 2) = Nat.log 2 n - 1 := Nat.log_div_base 2 n
            have hp : 0 < Nat.log 2 n := Nat.log_pos (by omega) (by omega)
            omega
          omega
      · have hgt : L.getD ((lo + hi) / 2).toNat 0 < s := by omega
        have himid : (lo + hi) / 2 < (i : ℤ) := by
          by_contra hge
          push_neg at hge
          rcases lt_or_eq_of_le hge with hlt2 | heqi
          · have hnat : i < ((lo + hi) / 2).toNat := by omega
            have hmlen : ((lo + hi) / 2).toNat < L.length := by omega
            have := pairwise_lt_getD L hsorted i ((lo + hi) / 2).toNat hnat hmlen
            omega
          · have : ((lo + hi) / 2).toNat = i := by omega
            rw [this] at heq
            exact heq his.symm
        have hn2 : 2 ≤ n := by omega
        obtain ⟨lo', hi', mid, t, hrec, h1, h2, h3, h4, h5, h6, h7⟩ :=
          ih (hi + 1 - ((lo + hi) / 2 + 1)).toNat (by omega) f ((lo + hi) / 2 + 1) hi
            rfl (by omega) (by omega) hhi ⟨i, by omega, hihi, hilen, his⟩
        refine ⟨lo', hi', mid, t + 1, ?_, by omega, h2, h3, h4, h5, by omega, ?_⟩
        · simp only [osearch, if_neg (not_lt.mpr hlohi), if_neg heq,
            if_neg (not_lt.mpr (le_of_lt hgt)), hrec]
          rfl
        · have hhalf : (hi + 1 - ((lo + hi) / 2 + 1)).toNat ≤ n / 2 := by omega
          have hlog : Nat.log2 (hi + 1 - ((lo + hi) / 2 + 1)).toNat + 1 ≤ Nat.log2 n := by
            rw [Nat.log2_eq_log_two, Nat.log2_eq_log_two]
            have hm := Nat.log_mono_right (b := 2) hhalf
            have hd : Nat.log 2 (n / 2) = Nat.log 2 n - 1 := Nat.log_div_base 2 n
            have hp : 0 < Nat.log 2 n := Nat.log_pos (by omega) (by omega)
            omega
          omega

/-- C5 counterexample.  The claim states that on every sorted
duplicate-free permutation list, driven by faithful comparisons, the
search terminates with `lo == hi` and the probed element equal to the
secret in at most `ceil(log2 len)` comparison turns.  Both conclusions
fail on the code: on the 24-entry permutation list of the multiset 0123
with secret 1320 the very first probe (`mid = 11`) already hits the
secret, so the run ends after one turn with `lo = 0 ≠ 23 = hi`; and on
the singleton permutation list of the multiset 1111 the faithful run
needs one comparison turn while `ceil(log2 1) = 0`. -/
theorem c5_binary_search_counterexample :
    c5_list24.Pairwise (· < ·) ∧ (1320 : ℕ) ∈ c5_list24
    ∧ c5_list24.length = 24
    ∧ osearch c5_list24 1320 24 0 23 = some (0, 23, 11, 1) ∧ ¬((0 : ℤ) = 23)
    ∧ c5_list1.Pairwise (· < ·) ∧ (1111 : ℕ) ∈ c5_list1
    ∧ c5_list1.length = 1
    ∧ osearch c5_list1 1111 1 0 0 = some (0, 0, 0, 1)
    ∧ ¬(1 ≤ ceil_log2 c5_list1.length) := by
  decide

/-- C5 amended: for every strictly ascending (hence duplicate-free) list
and every secret that is a member of it, the binary search driven by
faithful 3-way comparisons terminates at a probe equal to the secret,
with `lo ≤ mid ≤ hi` still in force (not necessarily `lo = hi`), using at
most `floor(log2 len) + 1` probes, the final probe answered `=`
included. -/
theorem c5_binary_search_amended (L : List ℕ) (s : ℕ)
    (hsorted : L.Pairwise (· < ·)) (hmem : s ∈ L) :
    ∃ lo' hi' mid : ℤ, ∃ t : ℕ,
      osearch L s L.length 0 ((L.length : ℤ) - 1) = some (lo', hi', mid, t)
      ∧ 0 ≤ lo' ∧ lo' ≤ mid ∧ mid ≤ hi' ∧ hi' ≤ (L.length : ℤ) - 1
      ∧ L.getD mid.toNat 0 = s
      ∧ 1 ≤ t ∧ t ≤ Nat.log2 L.length + 1 := by
  obtain ⟨⟨i, hi⟩, hget⟩ := List.mem_iff_get.mp hmem
  have hwit : ∃ j : ℕ, (0 : ℤ) ≤ (j : ℤ) ∧ (j : ℤ) ≤ (L.length : ℤ) - 1
      ∧ j < L.length ∧ L.getD j 0 = s := by
    refine ⟨i, by omega, by omega, hi, ?_⟩
    rw [List.getD_eq_getElem L 0 hi]
    simpa using hget
  have := osearch_correct L s hsorted L.length L.length 0 ((L.length : ℤ) - 1)
    (by omega) (le_refl _) (by omega) (by omega) hwit
  obtain ⟨lo', hi', mid, t, heq, h1, h2, h3, h4, h5, h6, h7⟩ := this
  exact ⟨lo', hi', mid, t, heq, h1, h2, h3, h4, h5, h6, h7⟩

/-- Witness for the amended C5 on a concrete permutation list. -/
theorem c5_binary_search_amended_witness :
    c5_list24.Pairwise (· < ·) ∧ (2310 : ℕ) ∈ c5_list24
    ∧ ∃ lo' hi' mid : ℤ, ∃ t : ℕ,
        osearch c5_list24 2310 c5_list24.length 0 ((c5_list24.length : ℤ) - 1)
          = some (lo', hi', mid, t)
        ∧ c5_list24.getD mid.toNat 0 = 2310 ∧ t ≤ Nat.log2 c5_list24.length + 1 := by
  refine ⟨by decide, by decide, ?_⟩
  obtain ⟨lo', hi', mid, t, heq, _, _, _, _, h5, _, h7⟩ :=
    c5_binary_search_amended c5_list24 2310 (by decide) (by decide)
  exact ⟨lo', hi', mid, t, heq, h5, h7⟩

/-! ## Permutation enumeration lemmas (for C10) -/

theorem mem_inserts (x : ℕ) (l t : List ℕ) :
    t ∈ inserts x l ↔ ∃ l1 l2, l = l1 ++ l2 ∧ t = l1 ++ x :: l2 := by
  induction l generalizing t with
  | nil =>
      constructor
      · intro h
        simp only [inserts, List.mem_singleton] at h
        exact ⟨[], [], rfl, by simp [h]⟩
      · rintro ⟨l1, l2, heq, rfl⟩
        obtain ⟨rfl, rfl⟩ := List.append_eq_nil.mp heq.symm
        simp [inserts]
  | cons y ys ih =>
      simp only [inserts, List.mem_cons, List.mem_map]
      constructor
      · rintro (rfl | ⟨t', ht', rfl⟩)
        · exact ⟨[], y :: ys, rfl, rfl⟩
        · obtain ⟨l1, l2, rfl, rfl⟩ := (ih t').mp ht'
          exact ⟨y :: l1, l2, rfl, rfl⟩
      · rintro ⟨l1, l2, heq, rfl⟩
        cases l1 with
        | nil =>
            simp only [List.nil_append] at heq ⊢
            subst heq
            exact Or.inl rfl
        | cons a l1' =>
            rw [List.cons_append] at heq
            injection heq with h1 h2
            subst h1
            exact Or.inr ⟨l1' ++ x :: l2, (ih _).mpr ⟨l1', l2, h2, rfl⟩, rfl⟩

theorem mem_perms (l t : List ℕ) : t ∈ perms l ↔ t.Perm l := by
  induction l generalizing t with
  | nil => simp [perms, List.perm_nil]
  | cons x xs ih =>
      simp only [perms, List.mem_flatMap]
      constructor
      · rintro ⟨p, hp, hins⟩
        obtain ⟨l1, l2, rfl, rfl⟩ := (mem_inserts x p t).mp hins
        exact List.perm_middle.trans (((ih _).mp hp).cons x)
      · intro hperm
        have hx : x ∈ t := hperm.mem_iff.mpr (List.mem_cons_self x xs)
        obtain ⟨l1, l2, rfl⟩ := List.append_of_mem hx
        refine ⟨l1 ++ l2, (ih _).mpr ?_, (mem_inserts x _ _).mpr ⟨l1, l2, rfl, rfl⟩⟩
        exact (List.perm_middle.symm.trans hperm).cons_inv

theorem inserts_map (g : ℕ → ℕ) (x : ℕ) (l : List ℕ) :
    inserts (g x) (l.map g) = (inserts x l).map (List.map g) := by
  induction l with
  | nil => rfl
  | cons y ys ih =>
      simp only [List.map_cons, inserts, ih, List.map_map, List.cons.injEq, true_and]
      congr 1

theorem perms_map (g : ℕ → ℕ) (l : List ℕ) :
    perms (l.map g) = (perms l).map (List.map g) := by
  induction l with
  | nil => rfl
  | cons x xs ih =>
      show (perms (xs.map g)).flatMap (inserts (g x))
          = ((perms xs).flatMap (inserts x)).map (List.map g)
      rw [ih, List.flatMap_map, List.map_flatMap]
      simp only [inserts_map]

theorem map_inj_on_lists (g : ℕ → ℕ) (S : List ℕ) (hg : ∀ a ∈ S, ∀ b ∈ S, g a = g b → a = b) :
    ∀ l1 l2 : List ℕ, (∀ a ∈ l1, a ∈ S) → (∀ a ∈ l2, a ∈ S) →
      l1.map g = l2.map g → l1 = l2 := by
  intro l1
  induction l1 with
  | nil =>
      intro l2 _ _ h
      cases l2 with
      | nil => rfl
      | cons b l2' => simp at h
  | cons a l1' ih =>
      intro l2 h1 h2 h
      cases l2 with
      | nil => simp at h
      | cons b l2' =>
          simp only [List.map_cons, List.cons.injEq] at h
          have hab : a = b :=
            hg a (h1 a (List.mem_cons_self a l1')) b (h2 b (List.mem_cons_self b l2')) h.1
          rw [hab, ih l2' (fun x hx => h1 x (List.mem_cons_of_mem a hx))
            (fun x hx => h2 x (List.mem_cons_of_mem b hx)) h.2]

theorem length_four_destruct : ∀ l : List ℕ, l.length = 4 → ∃ a b c d, l = [a, b, c, d]
  | [a, b, c, d], _ => ⟨a, b, c, d, rfl⟩

theorem toVal_inj_on_digits (l1 l2 : List ℕ) (h1 : l1.length = 4) (h2 : l2.length = 4)
    (hd1 : ∀ d ∈ l1, d < 10) (hd2 : ∀ d ∈ l2, d < 10) (h : toVal l1 = toVal l2) :
    l1 = l2 := by
  obtain ⟨a, b, c, d, rfl⟩ := length_four_destruct l1 h1
  obtain ⟨a', b', c', d', rfl⟩ := length_four_destruct l2 h2
  have hv : ((0 * 10 + a) * 10 + b) * 10 * 10 + c * 10 + d
      = ((0 * 10 + a') * 10 + b') * 10 * 10 + c' * 10 + d' := by
    have e1 : toVal [a, b, c, d] = ((((0 * 10 + a) * 10 + b) * 10 + c) * 10 + d) := rfl
    have e2 : toVal [a', b', c', d'] = ((((0 * 10 + a') * 10 + b') * 10 + c') * 10 + d') := rfl
    rw [e1, e2] at h
    ring_nf at h ⊢
    omega
  have ha : a < 10 := hd1 a (by simp)
  have hb : b < 10 := hd1 b (by simp)
  have hc : c < 10 := hd1 c (by simp)
  have hdd : d < 10 := hd1 d (by simp)
  have ha' : a' < 10 := hd2 a' (by simp)
  have hb' : b' < 10 := hd2 b' (by simp)
  have hc' : c' < 10 := hd2 c' (by simp)
  have hdd' : d' < 10 := hd2 d' (by simp)
  have : a = a' ∧ b = b' ∧ c = c' ∧ d = d' := by
    constructor
    · omega
    · constructor
      · omega
      · exact ⟨by omega, by omega⟩
  simp [this.1, this.2.1, this.2.2.1, this.2.2.2]

theorem toFinset_map_eq_image {α β : Type} [DecidableEq α] [DecidableEq β]
    (g : α → β) (l : List α) : (l.map g).toFinset = l.toFinset.image g := by
  ext x
  simp

theorem generate_length_eq_card (ms : List ℕ) (h4 : ms.length = 4)
    (hd : ∀ d ∈ ms, d < 10) :
    (generate_candidates_from_multiset ms).length = (perms ms).toFinset.card := by
  have hsortlen : (generate_candidates_from_multiset ms).length
      = ((perms ms).map toVal).dedup.length :=
    (List.perm_insertionSort (· ≤ ·) _).length_eq
  rw [hsortlen, ← List.card_toFinset, toFinset_map_eq_image]
  apply Finset.card_image_of_injOn
  intro t1 ht1 t2 ht2 heq
  rw [Finset.mem_coe, List.mem_toFinset, mem_perms] at ht1 ht2
  exact toVal_inj_on_digits t1 t2 (ht1.length_eq.trans h4) (ht2.length_eq.trans h4)
    (fun d hdm => hd d (ht1.mem_iff.mp hdm)) (fun d hdm => hd d (ht2.mem_iff.mp hdm)) heq

theorem perms_toFinset_congr (ms ms' : List ℕ) (h : ms.Perm ms') :
    (perms ms).toFinset = (perms ms').toFinset := by
  ext t
  simp only [List.mem_toFinset, mem_perms]
  exact ⟨fun ht => ht.trans h, fun ht => ht.trans h.symm⟩

theorem perms_map_card (g : ℕ → ℕ) (rep : List ℕ)
    (hg : ∀ a ∈ rep, ∀ b ∈ rep, g a = g b → a = b) :
    (perms (rep.map g)).toFinset.card = (perms rep).toFinset.card := by
  rw [perms_map, toFinset_map_eq_image]
  apply Finset.card_image_of_injOn
  intro t1 ht1 t2 ht2 heq
  rw [Finset.mem_coe, List.mem_toFinset, mem_perms] at ht1 ht2
  exact map_inj_on_lists g rep hg t1 t2
    (fun a ha => ht1.mem_iff.mp ha) (fun a ha => ht2.mem_iff.mp ha) heq

/-- C10: the permutation enumeration applied to a recovered 4-digit
multiset returns all distinct arrangements of its 4 characters as
integers — every member arises from an arrangement and vice versa —
deduplicated and sorted ascending, with exactly 24, 12, 6, 4 or 1 values
for the all-distinct, one-pair, two-pair, one-triple and all-equal
repetition patterns respectively. -/
theorem c10_enumerate_permutations (ms : List ℕ) (hd : ∀ d ∈ ms, d < 10) :
    (generate_candidates_from_multiset ms).Sorted (· ≤ ·)
    ∧ (generate_candidates_from_multiset ms).Nodup
    ∧ (∀ v : ℕ, v ∈ generate_candidates_from_multiset ms
        ↔ ∃ t : List ℕ, t.Perm ms ∧ toVal t = v)
    ∧ (∀ x y z w : ℕ, ms.Perm [x, y, z, w] → [x, y, z, w].Nodup →
        (generate_candidates_from_multiset ms).length = 24)
    ∧ (∀ x y z : ℕ, ms.Perm [x, x, y, z] → x ≠ y → x ≠ z → y ≠ z →
        (generate_candidates_from_multiset ms).length = 12)
    ∧ (∀ x y : ℕ, ms.Perm [x, x, y, y] → x ≠ y →
        (generate_candidates_from_multiset ms).length = 6)
    ∧ (∀ x y : ℕ, ms.Perm [x, x, x, y] → x ≠ y →
        (generate_candidates_from_multiset ms).length = 4)
    ∧ (∀ x : ℕ, ms.Perm [x, x, x, x] →
        (generate_candidates_from_multiset ms).length = 1) := by
  refine ⟨List.sorted_insertionSort _ _,
    (List.perm_insertionSort (· ≤ ·) _).nodup_iff.mpr (List.nodup_dedup _), ?_, ?_, ?_, ?_, ?_, ?_⟩
  · intro v
    unfold generate_candidates_from_multiset
    rw [(List.perm_insertionSort (· ≤ ·) _).mem_iff, List.mem_dedup, List.mem_map]
    simp only [mem_perms]
  · intro x y z w hp hnd
    rw [generate_length_eq_card ms (hp.length_eq.trans rfl) hd,
      perms_toFinset_congr ms [x, y, z, w] hp,
      show [x, y, z, w] = [0, 1, 2, 3].map
          (fun n => if n = 0 then x else if n = 1 then y else if n = 2 then z else w) by simp,
      perms_map_card _ _ ?_]
    · decide
    · intro a ha b hb
      simp only [List.mem_cons, List.not_mem_nil, or_false] at ha hb
      simp only [List.nodup_cons, List.mem_cons, List.mem_singleton, List.nodup_nil] at hnd
      rcases ha with rfl | rfl | rfl | rfl <;> rcases hb with rfl | rfl | rfl | rfl <;>
        simp_all <;> omega
  · intro x y z hp hxy hxz hyz
    rw [generate_length_eq_card ms (hp.length_eq.trans rfl) hd,
      perms_toFinset_congr ms [x, x, y, z] hp,
      show [x, x, y, z] = [0, 0, 1, 2].map
          (fun n => if n = 0 then x else if n = 1 then y else z) by simp,
      perms_map_card _ _ ?_]
    · decide
    · intro a ha b hb
      simp only [List.mem_cons, List.not_mem_nil, or_false] at ha hb
      rcases ha with rfl | rfl | rfl | rfl <;> rcases hb with rfl | rfl | rfl | rfl <;>
        simp_all <;> omega
  · intro x y hp hxy
    rw [generate_length_eq_card ms (hp.length_eq.trans rfl) hd,
      perms_toFinset_congr ms [x, x, y, y] hp,
      show [x, x, y, y] = [0, 0, 1, 1].map (fun n => if n = 0 then x else y) by simp,
      perms_map_card _ _ ?_]
    · decide
    · intro a ha b hb
      simp only [List.mem_cons, List.not_mem_nil, or_false] at ha hb
      rcases ha with rfl | rfl | rfl | rfl <;> rcases hb with rfl | rfl | rfl | rfl <;>
        simp_all <;> omega
  · intro x y hp hxy
    rw [generate_length_eq_card ms (hp.length_eq.trans rfl) hd,
      perms_toFinset_congr ms [x, x, x, y] hp,
      show [x, x, x, y] = [0, 0, 0, 1].map (fun n => if n = 0 then x else y) by simp,
      perms_map_card _ _ ?_]
    · decide
    · intro a ha b hb
      simp only [List.mem_cons, List.not_mem_nil, or_false] at ha hb
      rcases ha with rfl | rfl | rfl | rfl <;> rcases hb with rfl | rfl | rfl | rfl <;>
        simp_all <;> omega
  · intro x hp
    rw [generate_length_eq_card ms (hp.length_eq.trans rfl) hd,
      perms_toFinset_congr ms [x, x, x, x] hp,
      show [x, x, x, x] = [0, 0, 0, 0].map (fun _ => x) by simp,
      perms_map_card _ _ ?_]
    · decide
    · intro a ha b hb
      simp only [List.mem_cons, List.not_mem_nil, or_false] at ha hb
      rcases ha with rfl | rfl | rfl | rfl <;> rcases hb with rfl | rfl | rfl | rfl <;>
        simp_all <;> omega

/-- Witness for C10: a one-pair multiset yields 12 distinct arrangements. -/
theorem c10_enumerate_permutations_witness :
    (∀ d ∈ ([1, 1, 2, 3] : List ℕ), d < 10)
    ∧ (generate_candidates_from_multiset [1, 1, 2, 3]).length = 12 := by
  refine ⟨by decide, ?_⟩
  exact (c10_enumerate_permutations [1, 1, 2, 3] (by decide)).2.2.2.2.1 1 2 3
    (by decide) (by decide) (by decide) (by decide)

theorem gen_det_not_mem : ("generate_candidates_from_multiset" : String) ∉ module_defs := by
  decide

theorem gen_unique_not_mem :
    ("generate_candidates_from_multiset_unique" : String) ∉ module_defs := by
  decide

theorem solver_render_of_not_solver (s : GameState) (sample : List ℕ) (choice : ℕ)
    (h : s.stage ≠ Stage.solver) : solver_render s sample choice = s := by
  unfold solver_render
  rw [if_neg]
  intro hc
  exact h hc.1

/-- C7: in the ordering stage an inverted range `lo > hi` is terminal:
the view reports the contradiction and shows no probe, none of the three
comparison answers changes the state or produces a further probe (so the
engine cannot loop on the inverted range), and the only continuation is
the explicit restart, which reinitializes the game. -/
theorem c7_ordering_contradiction_terminal (s : GameState)
    (h : s.stage = Stage.ordering) (hinv : s.lo > s.hi) :
    ordering_view s = OrderingView.contradiction
    ∧ (∀ r : Rnd, step s Input.orderLt r = (s, none)
        ∧ step s Input.orderEq r = (s, none)
        ∧ step s Input.orderGt r = (s, none))
    ∧ (∀ r : Rnd, (step s Input.reset r).1 = reset_state
        ∧ reset_state.stage = Stage.intro) := by
  have hns : s.stage ≠ Stage.solver := by rw [h]; intro hh; cases hh
  have hguard : ¬(s.stage = Stage.ordering ∧ s.lo ≤ s.hi) := fun hc => absurd hc.2 (by omega)
  refine ⟨by simp [ordering_view, hinv], ?_, ?_⟩
  · intro r
    have hr1 : solver_render s r.sample r.choice = s := solver_render_of_not_solver s _ _ hns
    have hr2 : solver_render s r.sample2 r.choice2 = s := solver_render_of_not_solver s _ _ hns
    refine ⟨?_, ?_, ?_⟩ <;> simp only [step, hr1, handle, if_neg hguard, hr2]
  · intro r
    have hr1 : solver_render s r.sample r.choice = s := solver_render_of_not_solver s _ _ hns
    have hreset : reset_state.stage ≠ Stage.solver := by
      intro hh
      simp [reset_state] at hh
    have hr2 : solver_render reset_state r.sample2 r.choice2 = reset_state :=
      solver_render_of_not_solver _ _ _ hreset
    exact ⟨by simp only [step, hr1, handle, hr2], rfl⟩

/-- Witness for C7 at a concrete contradictory ordering state. -/
theorem c7_ordering_contradiction_terminal_witness :
    ordering_view
      { stage := Stage.ordering, max_trials := 30, trials := 0, tried := [],
        current_guess := none, recovered_guess := none, candidates := [],
        lo := 1, hi := 0, rand_match_selected := none, det_match_selected := none,
        digit_counts := none, det_digit := 0, final_answer := none }
      = OrderingView.contradiction := by
  exact (c7_ordering_contradiction_terminal _ rfl (by decide)).1

/-- C9: in the solver stage, submitting a feedback value below 4 with the
trial counter at or past the configured maximum moves the game to the
`Failed` state without raising any error; from `Failed` the user can
switch to the deterministic 10-query method or restart; the maximum is 30
by default and configurable only within 1..1000. -/
theorem c9_budget_exhaustion (s : GameState) (sel : ℕ) (gs : List ℕ)
    (hst : s.stage = Stage.solver) (hc : s.candidates ≠ [])
    (hsel : s.rand_match_selected = some sel) (hlt : sel < 4)
    (hguess : s.current_guess = some gs) (hbudget : s.max_trials ≤ s.trials) :
    (handle s Input.solverSubmit).2 = none
    ∧ (handle s Input.solverSubmit).1.stage = Stage.failed
    ∧ (∀ s' : GameState, s'.stage = Stage.failed →
        (handle s' Input.failedSwitch).1.stage = Stage.detIntro
        ∧ (handle s' Input.failedRestart).1 = reset_state)
    ∧ reset_state.max_trials = 30
    ∧ (∀ (s' : GameState) (v : ℕ), 1 ≤ v → v ≤ 1000 →
        (handle s' (Input.setMaxTrials v)).1.max_trials = v)
    ∧ (∀ (s' : GameState) (v : ℕ), v < 1 ∨ 1000 < v →
        (handle s' (Input.setMaxTrials v)).1.max_trials = s'.max_trials) := by
  have h4 : ¬(sel = 4) := by omega
  have hmain : handle s Input.solverSubmit
      = ({ { s with
              candidates := filter_candidates_by_feedback s.candidates gs sel
              tried := s.tried.insert (toVal gs)
              rand_match_selected := none } with stage := Stage.failed }, none) := by
    simp only [handle, if_pos (And.intro hst hc), hsel, hguess, if_neg h4,
      if_pos (show s.trials ≥ s.max_trials from hbudget)]
  refine ⟨by rw [hmain], by rw [hmain], ?_, rfl, ?_, ?_⟩
  · intro s' hs'
    constructor
    · simp only [handle, if_pos hs']
    · simp only [handle, if_pos hs']
  · intro s' v h1 h2
    simp only [handle, if_pos (And.intro h1 h2)]
  · intro s' v hbad
    have : ¬(1 ≤ v ∧ v ≤ 1000) := by omega
    simp only [handle, if_neg this]

/-- Witness for C9 at a concrete exhausted solver state. -/
theorem c9_budget_exhaustion_witness :
    (handle
      { stage := Stage.solver, max_trials := 30, trials := 30, tried := [],
        current_guess := some (format_guess 1234), recovered_guess := none,
        candidates := [1234, 5678], lo := 0, hi := -1, rand_match_selected := some 2,
        det_match_selected := none, digit_counts := none, det_digit := 0,
        final_answer := none }
      Input.solverSubmit).2 = none
    ∧ (handle
      { stage := Stage.solver, max_trials := 30, trials := 30, tried := [],
        current_guess := some (format_guess 1234), recovered_guess := none,
        candidates := [1234, 5678], lo := 0, hi := -1, rand_match_selected := some 2,
        det_match_selected := none, digit_counts := none, det_digit := 0,
        final_answer := none }
      Input.solverSubmit).1.stage = Stage.failed := by
  obtain ⟨ha, hb, _⟩ := c9_budget_exhaustion
    { stage := Stage.solver, max_trials := 30, trials := 30, tried := [],
      current_guess := some (format_guess 1234), recovered_guess := none,
      candidates := [1234, 5678], lo := 0, hi := -1, rand_match_selected := some 2,
      det_match_selected := none, digit_counts := none, det_digit := 0,
      final_answer := none }
    2 (format_guess 1234) rfl (by decide) rfl (by decide) rfl (by decide)
  exact ⟨ha, hb⟩

theorem solver_pick_singleton_sample (candidates : List ℕ) (v choice : ℕ)
    (h2 : 2 ≤ candidates.length) (hbig : 1000 < candidates.length) :
    solver_pick_guess candidates [v] choice = some v := by
  have h0 : ¬(candidates.length = 0) := by omega
  have h1 : ¬(candidates.length = 1) := by omega
  have hle : ¬(candidates.length ≤ 1000) := by omega
  simp only [solver_pick_guess, choose_best_guess, if_neg h0, if_neg h1, if_neg hle]
  rfl

/-- C6 (violated by the code): the rendering block of the solver stage
recomputes the guess on every script rerun; when the probe pool is larger
than 1000 the recomputation scores a fresh random sample, so a rerun that
happens between showing a probe and submitting its answer can pick a
different guess — the displayed probe is then replaced and the trial
counter advances although nothing was submitted or skipped. -/
theorem c6_probe_not_frozen (s : GameState) (g : List ℕ) (v : ℕ)
    (hst : s.stage = Stage.solver) (h2 : 2 ≤ s.candidates.length)
    (hbig : 1000 < s.candidates.length)
    (hg : s.current_guess = some g) (hne : g ≠ format_guess v) :
    (solver_render s [v] 0).current_guess = some (format_guess v)
    ∧ (solver_render s [v] 0).trials = s.trials + 1 := by
  have hc : s.candidates ≠ [] := by
    intro hnil
    rw [hnil] at h2
    simp at h2
  have hpick := solver_pick_singleton_sample s.candidates v 0 h2 hbig
  unfold solver_render
  rw [if_pos (And.intro hst hc), hpick]
  have hng : ¬(s.current_guess = some (format_guess v)) := by
    rw [hg]
    simp [hne]
  simp [hng]

/-- Witness for C6: a concrete awaiting state with a large pool whose
rerun resamples a different probe. -/
theorem c6_probe_not_frozen_witness :
    (solver_render
      { stage := Stage.solver, max_trials := 30, trials := 5, tried := [],
        current_guess := some (format_guess 123), recovered_guess := none,
        candidates := List.range 1001, lo := 0, hi := -1,
        rand_match_selected := none, det_match_selected := none,
        digit_counts := none, det_digit := 0, final_answer := none }
      [456] 0).current_guess = some (format_guess 456)
    ∧ (solver_render
      { stage := Stage.solver, max_trials := 30, trials := 5, tried := [],
        current_guess := some (format_guess 123), recovered_guess := none,
        candidates := List.range 1001, lo := 0, hi := -1,
        rand_match_selected := none, det_match_selected := none,
        digit_counts := none, det_digit := 0, final_answer := none }
      [456] 0).trials = 5 + 1 := by
  exact c6_probe_not_frozen _ (format_guess 123) 456 rfl
    (by simp [List.length_range]) (by simp [List.length_range]) rfl (by decide)

theorem step_detSelect (s : GameState) (b : Bool) (hst : s.stage = Stage.detQuery) :
    (step s (Input.detSelect b) rnd0).1
      = { s with det_match_selected := some (if b then 1 else 0) } := by
  have hns : s.stage ≠ Stage.solver := by rw [hst]; intro hh; cases hh
  have h1 : solver_render s rnd0.sample rnd0.choice = s := solver_render_of_not_solver _ _ _ hns
  simp only [step, h1, handle, if_pos hst]
  exact solver_render_of_not_solver _ _ _ (show _ ≠ _ from hns)

theorem step_detSubmit_mid (s : GameState) (sel : ℕ) (counts : List (Option ℕ))
    (hst : s.stage = Stage.detQuery) (hsel : s.det_match_selected = some sel)
    (hc : s.digit_counts = some counts) (hk : s.det_digit + 1 < 10) :
    step s Input.detSubmit rnd0 = ({ s with
        digit_counts := some (counts.set s.det_digit (some sel))
        det_match_selected := none
        det_digit := s.det_digit + 1 }, none) := by
  have hns : s.stage ≠ Stage.solver := by rw [hst]; intro hh; cases hh
  have h1 : solver_render s rnd0.sample rnd0.choice = s := solver_render_of_not_solver _ _ _ hns
  have h10 : ¬(s.det_digit + 1 ≥ 10) := by omega
  simp only [step, h1, handle, if_pos hst, hsel, hc, if_neg h10]
  exact congrArg (fun t => (t, none)) (solver_render_of_not_solver _ _ _ hns)

theorem step_detSubmit_last (s : GameState) (sel : ℕ) (counts : List (Option ℕ))
    (hst : s.stage = Stage.detQuery) (hsel : s.det_match_selected = some sel)
    (hc : s.digit_counts = some counts) (hk : s.det_digit = 9) :
    step s Input.detSubmit rnd0 =
      match det_finalize (counts.set s.det_digit (some sel)) with
      | DetResult.ok ds =>
          ({ s with
              digit_counts := some (counts.set s.det_digit (some sel))
              det_match_selected := none
              det_digit := s.det_digit + 1
              recovered_guess := some ds },
            some (PyError.nameError ("generate_candidates_from_multiset")))
      | _ =>
          ({ s with
              digit_counts := some (counts.set s.det_digit (some sel))
              det_match_selected := none
              det_digit := s.det_digit + 1 }, none) := by
  have hns : s.stage ≠ Stage.solver := by rw [hst]; intro hh; cases hh
  have h1 : solver_render s rnd0.sample rnd0.choice = s := solver_render_of_not_solver _ _ _ hns
  have h10 : s.det_digit + 1 ≥ 10 := by omega
  simp only [step, h1, handle, if_pos hst, hsel, hc, if_pos h10]
  cases hfin : det_finalize (counts.set s.det_digit (some sel)) with
  | uiError e =>
      simp only [hfin]
      exact congrArg (fun t => (t, none)) (solver_render_of_not_solver _ _ _ hns)
  | wrongTotal t =>
      simp only [hfin]
      exact congrArg (fun t => (t, none)) (solver_render_of_not_solver _ _ _ hns)
  | ok ds =>
      simp only [hfin]
      rw [if_neg gen_det_not_mem]

theorem det_round_mid (s : GameState) (b : Bool) (counts : List (Option ℕ))
    (hst : s.stage = Stage.detQuery) (hc : s.digit_counts = some counts)
    (hk : s.det_digit + 1 < 10) :
    det_round s b = ({ s with
        digit_counts := some (counts.set s.det_digit (some (if b then 1 else 0)))
        det_match_selected := none
        det_digit := s.det_digit + 1 }, none) := by
  unfold det_round
  rw [step_detSelect s b hst]
  exact step_detSubmit_mid _ _ counts hst rfl hc hk

theorem det_round_last (s : GameState) (b : Bool) (counts : List (Option ℕ))
    (hst : s.stage = Stage.detQuery) (hc : s.digit_counts = some counts)
    (hk : s.det_digit = 9) :
    det_round s b =
      match det_finalize (counts.set s.det_digit (some (if b then 1 else 0))) with
      | DetResult.ok ds =>
          ({ s with
              digit_counts := some (counts.set s.det_digit (some (if b then 1 else 0)))
              det_match_selected := none
              det_digit := s.det_digit + 1
              recovered_guess := some ds },
            some (PyError.nameError ("generate_candidates_from_multiset")))
      | _ =>
          ({ s with
              digit_counts := some (counts.set s.det_digit (some (if b then 1 else 0)))
              det_match_selected := none
              det_digit := s.det_digit + 1 }, none) := by
  unfold det_round
  rw [step_detSelect s b hst]
  exact step_detSubmit_last _ _ counts hst rfl hc hk

theorem det_run_mid : ∀ (ans : List Bool) (s : GameState) (counts : List (Option ℕ)),
    s.stage = Stage.detQuery → s.digit_counts = some counts →
    s.det_match_selected = none →
    s.det_digit + ans.length ≤ 9 →
    det_run s ans = ({ s with
        digit_counts := some (set_from counts s.det_digit ans)
        det_match_selected := none
        det_digit := s.det_digit + ans.length }, none) := by
  intro ans
  induction ans with
  | nil =>
      intro s counts hst hc hsel _
      show (s, none) = _
      cases s
      simp_all [set_from]
  | cons b bs ih =>
      intro s counts hst hc hsel hbound
      have hk : s.det_digit + 1 < 10 := by
        simp only [List.length_cons] at hbound
        omega
      show (match det_round s b with
        | (s', none) => det_run s' bs
        | (s', some e) => (s', some e)) = _
      rw [det_round_mid s b counts hst hc hk]
      have hrec := ih
        { s with
          digit_counts := some (counts.set s.det_digit (some (if b then 1 else 0)))
          det_match_selected := none
          det_digit := s.det_digit + 1 }
        (counts.set s.det_digit (some (if b then 1 else 0)))
        hst rfl rfl
        (by
          show s.det_digit + 1 + bs.length ≤ 9
          simp only [List.length_cons] at hbound
          omega)
      show det_run
        { s with
          digit_counts := some (counts.set s.det_digit (some (if b then 1 else 0)))
          det_match_selected := none
          det_digit := s.det_digit + 1 } bs = _
      rw [hrec]
      refine congrArg (fun t => (t, (none : Option PyError))) ?_
      cases s
      simp only [GameState.mk.injEq, set_from, List.length_cons, eq_self_iff_true,
        true_and, and_true]
      omega

theorem det_run_to_finalize : ∀ (ans : List Bool) (s : GameState) (counts : List (Option ℕ)),
    s.stage = Stage.detQuery → s.digit_counts = some counts →
    s.det_match_selected = none →
    s.det_digit + ans.length = 10 → ans ≠ [] →
    det_run s ans =
      match det_finalize (set_from counts s.det_digit ans) with
      | DetResult.ok ds =>
          ({ s with
              digit_counts := some (set_from counts s.det_digit ans)
              det_match_selected := none
              det_digit := 10
              recovered_guess := some ds },
            some (PyError.nameError ("generate_candidates_from_multiset")))
      | _ =>
          ({ s with
              digit_counts := some (set_from counts s.det_digit ans)
              det_match_selected := none
              det_digit := 10 }, none) := by
  intro ans
  induction ans with
  | nil => intro s counts _ _ _ _ hne; exact absurd rfl hne
  | cons b bs ih =>
      intro s counts hst hc hsel hbound _
      cases bs with
      | nil =>
          have hk : s.det_digit = 9 := by
            simp only [List.length_cons, List.length_nil] at hbound
            omega
          show (match det_round s b with
            | (s', none) => det_run s' []
            | (s', some e) => (s', some e)) = _
          rw [det_round_last s b counts hst hc hk]
          cases hfin : det_finalize (counts.set s.det_digit (some (if b then 1 else 0))) with
          | uiError e =>
              simp only [set_from, hfin]
              show (_, (none : Option PyError)) = _
              rw [show s.det_digit + 1 = 10 from by omega]
          | wrongTotal t =>
              simp only [set_from, hfin]
              show (_, (none : Option PyError)) = _
              rw [show s.det_digit + 1 = 10 from by omega]
          | ok ds =>
              simp only [set_from, hfin]
              rw [show s.det_digit + 1 = 10 from by omega]
      | cons b2 bs2 =>
          have hk : s.det_digit + 1 < 10 := by
            simp only [List.length_cons] at hbound
            omega
          show (match det_round s b with
            | (s', none) => det_run s' (b2 :: bs2)
            | (s', some e) => (s', some e)) = _
          rw [det_round_mid s b counts hst hc hk]
          have hrec := ih
            { s with
              digit_counts := some (counts.set s.det_digit (some (if b then 1 else 0)))
              det_match_selected := none
              det_digit := s.det_digit + 1 }
            (counts.set s.det_digit (some (if b then 1 else 0)))
            hst rfl rfl
            (by
              show s.det_digit + 1 + (b2 :: bs2).length = 10
              simp only [List.length_cons] at hbound ⊢
              omega)
            (by simp)
          show det_run
            { s with
              digit_counts := some (counts.set s.det_digit (some (if b then 1 else 0)))
              det_match_selected := none
              det_digit := s.det_digit + 1 } (b2 :: bs2) = _
          rw [hrec]
          rfl

theorem set_append_len (v : Option ℕ) :
    ∀ (A R : List (Option ℕ)) (x : Option ℕ),
      (A ++ x :: R).set A.length v = A ++ v :: R := by
  intro A
  induction A with
  | nil => intro R x; rfl
  | cons a A' ihA =>
      intro R x
      simp only [List.cons_append, List.length_cons, List.set]
      exact congrArg (a :: ·) (ihA R x)

theorem set_from_append : ∀ (bs : List Bool) (A R : List (Option ℕ)),
    R.length = bs.length →
    set_from (A ++ R) A.length bs = A ++ bs.map (fun b => some (if b then 1 else 0)) := by
  intro bs
  induction bs with
  | nil =>
      intro A R hR
      have hRnil : R = [] := List.length_eq_zero.mp (by simpa using hR)
      subst hRnil
      simp [set_from]
  | cons b bs' ih =>
      intro A R hR
      cases R with
      | nil => simp at hR
      | cons r R' =>
          show set_from ((A ++ r :: R').set A.length (some (if b then 1 else 0)))
              (A.length + 1) bs' = _
          rw [set_append_len]
          have : A ++ some (if b then 1 else 0) :: R'
              = (A ++ [some (if b then 1 else 0)]) ++ R' := by
            rw [List.append_cons]
          rw [this]
          have hlen : (A ++ [some (if b then 1 else 0)]).length = A.length + 1 := by
            simp
          rw [← hlen, ih (A ++ [some (if b then 1 else 0)]) R'
            (by simp only [List.length_cons] at hR; omega)]
          simp

theorem detScan_map_answers : ∀ (bs : List Bool) (d : ℕ),
    detScan (bs.map (fun b => some (if b then 1 else 0))) d
      = Except.ok (flagged_from bs d) := by
  intro bs
  induction bs with
  | nil => intro d; rfl
  | cons b bs' ih =>
      intro d
      cases b with
      | false =>
          show detScan (some 0 :: bs'.map (fun b => some (if b then 1 else 0))) d = _
          simp only [detScan, flagged_from]
          rw [ih (d + 1)]
          simp
      | true =>
          show detScan (some 1 :: bs'.map (fun b => some (if b then 1 else 0))) d = _
          simp only [detScan, flagged_from]
          rw [ih (d + 1)]
          simp

theorem flagged_from_sorted : ∀ (bs : List Bool) (d : ℕ),
    (flagged_from bs d).Pairwise (· < ·) ∧ ∀ x ∈ flagged_from bs d, d ≤ x := by
  intro bs
  induction bs with
  | nil => intro d; simp [flagged_from]
  | cons b bs' ih =>
      intro d
      obtain ⟨hp, hge⟩ := ih (d + 1)
      cases b with
      | false =>
          refine ⟨hp, ?_⟩
          intro x hx
          exact le_trans (by omega) (hge x hx)
      | true =>
          refine ⟨List.pairwise_cons.mpr ⟨fun x hx => by have := hge x hx; omega, hp⟩, ?_⟩
          intro x hx
          rcases List.mem_cons.mp hx with rfl | hx
          · exact le_refl x
          · exact le_trans (by omega) (hge x hx)

theorem flagged_from_mem : ∀ (bs : List Bool) (d x : ℕ),
    x ∈ flagged_from bs d ↔ ∃ j, j < bs.length ∧ bs.getD j false = true ∧ x = j + d := by
  intro bs
  induction bs with
  | nil => intro d x; simp [flagged_from]
  | cons b bs' ih =>
      intro d x
      cases b with
      | false =>
          show x ∈ flagged_from bs' (d + 1) ↔ _
          rw [ih (d + 1) x]
          constructor
          · rintro ⟨j, hj, hget, rfl⟩
            exact ⟨j + 1, by simpa using hj, by simpa using hget, by omega⟩
          · rintro ⟨j, hj, hget, rfl⟩
            cases j with
            | zero => simp at hget
            | succ j' =>
                refine ⟨j', ?_, by simpa using hget, by omega⟩
                simp only [List.length_cons] at hj
                omega
      | true =>
          show x ∈ d :: flagged_from bs' (d + 1) ↔ _
          rw [List.mem_cons, ih (d + 1) x]
          constructor
          · rintro (rfl | ⟨j, hj, hget, rfl⟩)
            · exact ⟨0, by simp, by simp, by omega⟩
            · exact ⟨j + 1, by simpa using hj, by simpa using hget, by omega⟩
          · rintro ⟨j, hj, hget, rfl⟩
            cases j with
            | zero => exact Or.inl (by omega)
            | succ j' =>
                refine Or.inr ⟨j', ?_, by simpa using hget, by omega⟩
                simp only [List.length_cons] at hj
                omega

theorem det_finalize_answers (bs : List Bool) :
    det_finalize (bs.map (fun b => some (if b then 1 else 0)))
      = if (flagged_from bs 0).length ≠ 4 then DetResult.wrongTotal (flagged_from bs 0).length
        else DetResult.ok (flagged_from bs 0) := by
  unfold det_finalize
  rw [detScan_map_answers]

theorem set_from_replicate_ten (bs : List Bool) (hlen : bs.length = 10) :
    set_from (List.replicate 10 none) 0 bs
      = bs.map (fun b => some (if b then 1 else 0)) := by
  have h := set_from_append bs [] (List.replicate 10 none) (by simp [hlen])
  simpa using h

/-- C8: the deterministic prober asks exactly 10 queries, one per digit
0..9 in increasing order (after `k` answered rounds the prompted digit is
`k`, and the tally runs only once the 10th answer is in); if the number
of digits marked present differs from 4, the tally reports the wrong
total as an error — not a silent correction — and no multiset is
recovered; if it is exactly 4, the recovered multiset is the ascending
list of the four flagged digits, with no further filtering. -/
theorem c8_deterministic_prober (s0 : GameState) (bs : List Bool)
    (hst : s0.stage = Stage.detQuery)
    (hc : s0.digit_counts = some (List.replicate 10 none))
    (hsel : s0.det_match_selected = none)
    (hd0 : s0.det_digit = 0) (hlen : bs.length = 10) :
    (∀ k : ℕ, k ≤ 9 →
        (det_run s0 (bs.take k)).2 = none
        ∧ (det_run s0 (bs.take k)).1.stage = Stage.detQuery
        ∧ (det_run s0 (bs.take k)).1.det_digit = k)
    ∧ ((flagged_from bs 0).length ≠ 4 →
        (det_run s0 bs).2 = none
        ∧ (det_run s0 bs).1.recovered_guess = s0.recovered_guess
        ∧ det_finalize (bs.map (fun b => some (if b then 1 else 0)))
            = DetResult.wrongTotal (flagged_from bs 0).length)
    ∧ ((flagged_from bs 0).length = 4 →
        (det_run s0 bs).1.recovered_guess = some (flagged_from bs 0)
        ∧ (det_run s0 bs).2
            = some (PyError.nameError ("generate_candidates_from_multiset")))
    ∧ (flagged_from bs 0).Pairwise (· < ·)
    ∧ (∀ x : ℕ, x ∈ flagged_from bs 0 ↔ x < 10 ∧ bs.getD x false = true) := by
  have hmaster := det_run_to_finalize bs s0 (List.replicate 10 none) hst hc hsel
    (by rw [hd0, hlen]) (by intro hnil; rw [hnil] at hlen; simp at hlen)
  rw [hd0, set_from_replicate_ten bs hlen, det_finalize_answers bs] at hmaster
  refine ⟨?_, ?_, ?_, (flagged_from_sorted bs 0).1, ?_⟩
  · intro k hk
    have hklen : s0.det_digit + (bs.take k).length ≤ 9 := by
      rw [hd0]
      simp only [List.length_take, hlen]
      omega
    rw [det_run_mid (bs.take k) s0 (List.replicate 10 none) hst hc hsel hklen]
    refine ⟨rfl, hst, ?_⟩
    show s0.det_digit + (bs.take k).length = k
    rw [hd0]
    simp only [List.length_take, hlen]
    omega
  · intro hne
    rw [if_pos hne] at hmaster
    rw [hmaster]
    exact ⟨rfl, rfl, by rw [det_finalize_answers bs, if_pos hne]⟩
  · intro heq
    rw [if_neg (by omega)] at hmaster
    rw [hmaster]
    exact ⟨rfl, rfl⟩
  · intro x
    rw [flagged_from_mem bs 0 x]
    constructor
    · rintro ⟨j, hj, hget, rfl⟩
      rw [hlen] at hj
      exact ⟨by omega, by simpa using hget⟩
    · rintro ⟨hx, hget⟩
      exact ⟨x, by omega, hget, by omega⟩

/-- Witness for C8 on a concrete fresh 10-query state with four flagged
digits. -/
theorem c8_deterministic_prober_witness :
    (flagged_from [true, true, true, false, false, false, false, false, true, false] 0).Pairwise
      (· < ·)
    ∧ (det_run
        { stage := Stage.detQuery, max_trials := 30, trials := 0, tried := [],
          current_guess := none, recovered_guess := none, candidates := [],
          lo := 0, hi := -1, rand_match_selected := none, det_match_selected := none,
          digit_counts := some (List.replicate 10 none), det_digit := 0,
          final_answer := none }
        [true, true, true, false, false, false, false, false, true, false]).1.recovered_guess
      = some (flagged_from [true, true, true, false, false, false, false, false, true, false] 0) := by
  obtain ⟨_, _, hok, hpair, _⟩ := c8_deterministic_prober
    { stage := Stage.detQuery, max_trials := 30, trials := 0, tried := [],
      current_guess := none, recovered_guess := none, candidates := [],
      lo := 0, hi := -1, rand_match_selected := none, det_match_selected := none,
      digit_counts := some (List.replicate 10 none), det_digit := 0,
      final_answer := none }
    [true, true, true, false, false, false, false, false, true, false]
    rfl rfl rfl rfl (by decide)
  exact ⟨hpair, (hok (by decide)).1⟩

theorem solver_render_fields (s : GameState) (sample : List ℕ) (choice : ℕ) :
    (solver_render s sample choice).stage = s.stage
    ∧ (solver_render s sample choice).final_answer = s.final_answer := by
  unfold solver_render
  split
  · split
    · exact ⟨rfl, rfl⟩
    · split
      · exact ⟨rfl, rfl⟩
      · exact ⟨rfl, rfl⟩
  · exact ⟨rfl, rfl⟩

theorem handle_preserves (s : GameState) (inp : Input)
    (h1 : s.stage ≠ Stage.ordering) (h2 : s.stage ≠ Stage.done)
    (h3 : s.final_answer = none) :
    (handle s inp).1.stage ≠ Stage.ordering ∧ (handle s inp).1.stage ≠ Stage.done
      ∧ (handle s inp).1.final_answer = none := by
  cases inp <;>
    simp only [handle] <;>
    (repeat' split) <;>
    simp_all [reset_state] <;>
    first
      | rfl
      | (intro hh; cases hh)
      | exact gen_det_not_mem (by assumption)
      | exact gen_unique_not_mem (by assumption)
      | skip

theorem reachable_invariant (s : GameState) (h : Reachable s) :
    s.stage ≠ Stage.ordering ∧ s.stage ≠ Stage.done ∧ s.final_answer = none := by
  induction h with
  | init =>
      refine ⟨?_, ?_, rfl⟩ <;> (show Stage.intro ≠ _; intro hh; cases hh)
  | next s' inp r _ ih =>
      obtain ⟨ih1, ih2, ih3⟩ := ih
      have hr1 := solver_render_fields s' r.sample r.choice
      have hp := handle_preserves (solver_render s' r.sample r.choice) inp
        (by rw [hr1.1]; exact ih1) (by rw [hr1.1]; exact ih2) (by rw [hr1.2]; exact ih3)
      unfold step
      cases hh : handle (solver_render s' r.sample r.choice) inp with
      | mk s2 e =>
          rw [hh] at hp
          cases e with
          | none =>
              have hr2 := solver_render_fields s2 r.sample2 r.choice2
              exact ⟨by rw [hr2.1]; exact hp.1, by rw [hr2.1]; exact hp.2.1,
                by rw [hr2.2]; exact hp.2.2⟩
          | some err => exact hp

/-- C1: the transition out of digit discovery crashes on both paths:
neither `generate_candidates_from_multiset` nor
`generate_candidates_from_multiset_unique` is bound anywhere in the
module, so a match count of 4 submitted in the solver stage raises a
`NameError` naming the latter, a deterministic 10-query run tallying a
valid total of 4 raises a `NameError` naming the former, and consequently
no reachable state is ever in the ordering stage or the done stage or
holds a final answer. -/
theorem c1_missing_generators_crash :
    ("generate_candidates_from_multiset" ∉ module_defs
      ∧ "generate_candidates_from_multiset_unique" ∉ module_defs)
    ∧ (∀ (s : GameState) (gs : List ℕ), s.stage = Stage.solver → s.candidates ≠ [] →
        s.rand_match_selected = some 4 → s.current_guess = some gs →
        (handle s Input.solverSubmit).2
          = some (PyError.nameError ("generate_candidates_from_multiset_unique")))
    ∧ (∀ (s : GameState) (sel : ℕ) (counts : List (Option ℕ)) (ds : List ℕ),
        s.stage = Stage.detQuery → s.det_match_selected = some sel →
        s.digit_counts = some counts → s.det_digit = 9 →
        det_finalize (counts.set 9 (some sel)) = DetResult.ok ds →
        (handle s Input.detSubmit).2
          = some (PyError.nameError ("generate_candidates_from_multiset")))
    ∧ (∀ s : GameState, Reachable s →
        s.stage ≠ Stage.ordering ∧ s.stage ≠ Stage.done ∧ s.final_answer = none) := by
  refine ⟨⟨gen_det_not_mem, gen_unique_not_mem⟩, ?_, ?_, reachable_invariant⟩
  · intro s gs hst hc hsel hguess
    simp only [handle, if_pos (And.intro hst hc), hsel, hguess, if_pos rfl,
      if_neg gen_unique_not_mem]
    simp
  · intro s sel counts ds hst hsel hc h9 hfin
    have h10 : s.det_digit + 1 ≥ 10 := by omega
    simp only [handle, if_pos hst, hsel, hc, if_pos h10, h9, hfin]
    rw [if_neg gen_det_not_mem]
    norm_num

/-- Witness for C1 at concrete crashing states and the initial state. -/
theorem c1_missing_generators_crash_witness :
    (handle
      { stage := Stage.solver, max_trials := 30, trials := 1, tried := [],
        current_guess := some (format_guess 1234), recovered_guess := none,
        candidates := [1234], lo := 0, hi := -1, rand_match_selected := some 4,
        det_match_selected := none, digit_counts := none, det_digit := 0,
        final_answer := none }
      Input.solverSubmit).2
      = some (PyError.nameError ("generate_candidates_from_multiset_unique"))
    ∧ (handle
      { stage := Stage.detQuery, max_trials := 30, trials := 0, tried := [],
        current_guess := none, recovered_guess := none, candidates := [],
        lo := 0, hi := -1, rand_match_selected := none,
        det_match_selected := some 1,
        digit_counts := some [some 1, some 1, some 1, some 0, some 0, some 0,
          some 0, some 0, some 0, none],
        det_digit := 9, final_answer := none }
      Input.detSubmit).2
      = some (PyError.nameError ("generate_candidates_from_multiset"))
    ∧ reset_state.stage ≠ Stage.ordering ∧ reset_state.stage ≠ Stage.done
    ∧ reset_state.final_answer = none := by
  refine ⟨?_, ?_, ?_⟩
  · exact c1_missing_generators_crash.2.1
      { stage := Stage.solver, max_trials := 30, trials := 1, tried := [],
        current_guess := some (format_guess 1234), recovered_guess := none,
        candidates := [1234], lo := 0, hi := -1, rand_match_selected := some 4,
        det_match_selected := none, digit_counts := none, det_digit := 0,
        final_answer := none }
      (format_guess 1234) rfl (by decide) rfl rfl
  · exact c1_missing_generators_crash.2.2.1
      { stage := Stage.detQuery, max_trials := 30, trials := 0, tried := [],
        current_guess := none, recovered_guess := none, candidates := [],
        lo := 0, hi := -1, rand_match_selected := none,
        det_match_selected := some 1,
        digit_counts := some [some 1, some 1, some 1, some 0, some 0, some 0,
          some 0, some 0, some 0, none],
        det_digit := 9, final_answer := none }
      1 [some 1, some 1, some 1, some 0, some 0, some 0, some 0, some 0, some 0, none]
      [0, 1, 2, 9] rfl rfl rfl rfl (by decide)
  · exact c1_missing_generators_crash.2.2.2 reset_state Reachable.init

end Game
